import Mathlib

set_option autoImplicit false

/-!
Shallow embedding of the go-monitor-ssd1306 system monitor (SSD1306 OLED
display driver application) and proofs about its rendering, rotation and
brightness logic.

The embedding follows the full-featured variant of the source
(`DisplayManager` with day/night brightness, display inversion, injected
`timeNow`, and the `temperature` component).  Machine integers are modelled
as `Int`, Go `float64` values as `ℚ` (the claims only involve exactly
representable values such as 0, 1/2, 1 and small negatives, on which
float64 arithmetic is exact), and fallible operations as `Except String`.
External capabilities (gopsutil metrics, the net package, the thermal
sysfs file, the global clock, the glyph rasterizer of
golang.org/x/image/font/basicfont) are out of scope per the source's
library boundary and are modelled as explicit environment inputs.
-/

/-- Display width in pixels (source constant `width = 128`). -/
def dispW : Int := 128

/-- Display height in pixels (source constant `height = 64`). -/
def dispH : Int := 64

/-- Progress bar height (source constant `barHeight = 7`). -/
def barHeight : Int := 7

/-- Bright contrast level (source constant `brightContrast = 255`). -/
def brightContrast : Nat := 255

/-- Dim contrast level (source constant `dimContrast = 1`). -/
def dimContrast : Nat := 1

/-- The monochrome frame buffer: the source uses an `image.RGBA` over
`Rect(0,0,128,64)` whose pixels are either fully off (zero bytes) or
`color.White`; we record the on/off state of each coordinate. -/
structure Img where
  pix : Int → Int → Bool

/-- A buffer with every pixel off: the state after the full clear loop
(`img.Pix[i] = 0` for every byte). -/
def emptyImg : Img := ⟨fun _ _ => false⟩

/-- Whether a coordinate lies inside the buffer bounds `Rect(0,0,128,64)`.
`image.RGBA.Set` silently discards writes outside this rectangle. -/
def inBounds (x y : Int) : Prop :=
  0 ≤ x ∧ x < dispW ∧ 0 ≤ y ∧ y < dispH

instance (x y : Int) : Decidable (inBounds x y) := by
  unfold inBounds
  infer_instance

/-- `img.Set(x, y, color.White)`: turns the pixel on, clipped to the
buffer bounds exactly as `image.RGBA.Set` does. -/
def Img.set (img : Img) (x y : Int) : Img :=
  if inBounds x y then
    ⟨fun a b => if a = x ∧ b = y then true else img.pix a b⟩
  else img

/-- The top/bottom border loop of `drawBar`:
`for i := x; i < x+width; i++ { img.Set(i, y, ...); img.Set(i, y+height, ...) }`,
with `n` the remaining iteration count and `i` the loop counter. -/
def barBorderH (img : Img) (i y yh : Int) : Nat → Img
  | 0 => img
  | Nat.succ n => barBorderH ((img.set i y).set i yh) (i + 1) y yh n

/-- The left/right border loop of `drawBar`:
`for i := y; i < y+height; i++ { img.Set(x, i, ...); img.Set(x+width, i, ...) }`. -/
def barBorderV (img : Img) (x xw j : Int) : Nat → Img
  | 0 => img
  | Nat.succ n => barBorderV ((img.set x j).set xw j) x xw (j + 1) n

/-- The inner fill loop of `drawBar`:
`for j := y + 1; j < y+height; j++ { img.Set(i, j, ...) }`. -/
def fillCol (img : Img) (i j : Int) : Nat → Img
  | 0 => img
  | Nat.succ n => fillCol (img.set i j) i (j + 1) n

/-- The outer fill loop of `drawBar`:
`for i := x + 1; i < x+1+fillWidth; i++ { inner loop }`. -/
def barFill (img : Img) (i y h : Int) : Nat → Img
  | 0 => img
  | Nat.succ n => barFill (fillCol img i (y + 1) (h - 1).toNat) (i + 1) y h n

/-- Go's conversion `int(f)` of a `float64`: truncation toward zero,
modelled on the rationals. -/
def ratTrunc (q : ℚ) : Int :=
  if 0 ≤ q then ⌊q⌋ else ⌈q⌉

/-- The computed fill width of `drawBar`:
`fillWidth := int(float64(width-2) * percentage)`. -/
def fillW (w : Int) (frac : ℚ) : Int :=
  ratTrunc (((w - 2 : Int) : ℚ) * frac)

/-- `drawBar(img, x, y, width, height, percentage)`: draws the 1-pixel
border (two loops) and then the proportional fill block, exactly
mirroring the source's loop bounds. -/
def drawBar (img : Img) (x y w h : Int) (frac : ℚ) : Img :=
  barFill (barBorderV (barBorderH img x y (y + h) w.toNat) x (x + w) y h.toNat)
    (x + 1) y h (fillW w frac).toNat

/-- Go time.Time as consumed by the source: an hour of day (the Hour()
method) and a Format method mapping a layout string to rendered text. -/
structure GoTime where
  hour : Int
  fmt : String → String

/-- One entry of iface.Addrs() (operating-system data, out of scope).
none models an address that is not a *net.IPNet; some none an IPNet
whose IP has no IPv4 form (To4() == nil); some (some s) an IPv4 address
whose String() is the dotted-decimal text s. -/
structure NetAddr where
  ipNet : Option (Option String)

/-- A network interface: its Addrs() call may fail. -/
structure NetIface where
  addrs : Except String (List NetAddr)

/-- The state of the net package: InterfaceByName may fail. -/
structure NetEnv where
  interfaceByName : String → Except String NetIface

/-- The scan of iface.Addrs() entries in GetIPv4Address: returns the
String() of the first IPv4 address, else the fallback. -/
def firstIPv4 : List NetAddr → String
  | [] => ("No IPv4")
  | a :: rest =>
    match a.ipNet with
    | some (some ip4) => ip4
    | _ => firstIPv4 rest

/-- RealNetworkChecker.GetIPv4Address: total, returning either the
interface's first IPv4 address in dotted-decimal form or one of the
fallback strings; it never signals an error. -/
def getIPv4Address (env : NetEnv) (interfaceName : String) : String :=
  match env.interfaceByName interfaceName with
  | Except.error _ => ("No ") ++ interfaceName
  | Except.ok iface =>
    match iface.addrs with
    | Except.error _ => ("No IP")
    | Except.ok addrList => firstIPv4 addrList

/-- The environment of externally supplied capabilities the renderer
reads: the gopsutil metric providers (which may fail), the parsed raw
value of /sys/class/thermal/thermal_zone0/temp (whose read or parse may
fail), and the ambient global clock time.Now(). -/
structure SysEnv where
  cpuPercent : Except String ℚ
  memUsedPercent : Except String ℚ
  diskUsedPercent : Except String ℚ
  tempRead : Except String ℚ
  now : GoTime

/-- A display component configuration (struct Component). -/
structure Component where
  type : String
  x : Int
  y : Int
  label : String
  showBar : Bool
  barWidth : Int
  timeFormat : String

/-- A single virtual screen configuration (struct Screen). -/
structure Screen where
  name : String
  components : List Component

/-- The main configuration (struct Config), field for field. -/
structure Config where
  screenDuration : Int
  networkInterface : String
  invertDuration : Int
  dayStartHour : Int
  nightStartHour : Int
  screens : List Screen

/-- DisplayManager state.  The device handle dev is modelled by the
device commands the functions below emit, and the frame buffer img is
threaded explicitly; networkChecker is the injected NetworkChecker
interface (a total String-valued lookup), timeNow the injected clock. -/
structure DisplayManager where
  config : Config
  currentScreen : Nat
  networkChecker : String → String
  isInverted : Bool
  timeNow : GoTime

/-- A call to one of the two drawing primitives. -/
inductive DrawOp where
  | labelOp (x y : Int) (s : String)
  | barOp (x y w h : Int) (frac : ℚ)
deriving DecidableEq

/-- A command issued to the DisplayDevice. -/
inductive DevCmd where
  | setContrast (level : Nat)
  | invert (b : Bool)
  | draw (x0 y0 x1 y1 : Int)
deriving DecidableEq

/-- The glyph rasterizer behind addLabel (font.Drawer over
basicfont.Face7x13): an external library, modelled as an abstract
raster function from buffer, position and text to a new buffer. -/
abbrev FontRaster : Type := Img → Int → Int → String → Img

/-- Replay of one primitive call onto the frame buffer. -/
def applyOp (font : FontRaster) (img : Img) : DrawOp → Img
  | DrawOp.labelOp x y s => font img x y s
  | DrawOp.barOp x y w h f => drawBar img x y w h f

/-- Replay of a sequence of primitive calls, in order. -/
def applyOps (font : FontRaster) (img : Img) (ops : List DrawOp) : Img :=
  ops.foldl (applyOp font) img

/-- Rendering of a float64 with the %.1f verb (one decimal place),
modelled on the rationals.  Exact tie behaviour is irrelevant here: no
claim evaluates the formatter at a tie. -/
def fmt1 (q : ℚ) : String :=
  (if q < 0 then ("-") else ("")) ++
    toString ((round (|q| * 10)).toNat / 10) ++ (".") ++
    toString ((round (|q| * 10)).toNat % 10)

/-- The label prefix of the time component: label plus a separator when
the label is non-empty. -/
def labelPrefix (label : String) : String :=
  if label = ("") then ("") else label ++ (": ")

/-- renderComponent: dispatches on comp.Type and returns the sequence
of primitive draw calls issued against the frame buffer, or the first
provider error.  The time arm reads the ambient clock (time.Now()),
not the injected dm.timeNow. -/
def renderComponent (env : SysEnv) (dm : DisplayManager) (comp : Component) :
    Except String (List DrawOp) :=
  if comp.type = ("time") then
    Except.ok [DrawOp.labelOp comp.x comp.y
      (labelPrefix comp.label ++
        env.now.fmt (if comp.timeFormat = ("") then ("15:04:05") else comp.timeFormat))]
  else if comp.type = ("ip") then
    Except.ok [DrawOp.labelOp comp.x comp.y
      (comp.label ++ (": ") ++ dm.networkChecker dm.config.networkInterface)]
  else if comp.type = ("cpu") then
    match env.cpuPercent with
    | Except.error e => Except.error e
    | Except.ok p =>
      Except.ok ([DrawOp.labelOp comp.x comp.y (comp.label ++ (": ") ++ fmt1 p ++ ("%"))] ++
        (if comp.showBar then
          [DrawOp.barOp comp.x (comp.y + 5) comp.barWidth barHeight (p / 100)]
         else []))
  else if comp.type = ("memory") then
    match env.memUsedPercent with
    | Except.error e => Except.error e
    | Except.ok p =>
      Except.ok ([DrawOp.labelOp comp.x comp.y (comp.label ++ (": ") ++ fmt1 p ++ ("%"))] ++
        (if comp.showBar then
          [DrawOp.barOp comp.x (comp.y + 5) comp.barWidth barHeight (p / 100)]
         else []))
  else if comp.type = ("disk") then
    match env.diskUsedPercent with
    | Except.error e => Except.error e
    | Except.ok p =>
      Except.ok ([DrawOp.labelOp comp.x comp.y (comp.label ++ (": ") ++ fmt1 p ++ ("%"))] ++
        (if comp.showBar then
          [DrawOp.barOp comp.x (comp.y + 5) comp.barWidth barHeight (p / 100)]
         else []))
  else if comp.type = ("temperature") then
    match env.tempRead with
    | Except.error e => Except.error e
    | Except.ok raw =>
      Except.ok ([DrawOp.labelOp comp.x comp.y
          (comp.label ++ (": ") ++ fmt1 (raw / 1000) ++ (" C"))] ++
        (if comp.showBar then
          [DrawOp.barOp comp.x (comp.y + 5) comp.barWidth barHeight ((raw / 1000) / 100)]
         else []))
  else Except.ok []

/-- The draw ops a component contributes when it succeeds. -/
def compOps (env : SysEnv) (dm : DisplayManager) (c : Component) : List DrawOp :=
  (renderComponent env dm c).toOption.getD []

/-- The component loop of renderCurrentScreen: renders in declared
order and short-circuits on the first error, wrapping it as the source
does. -/
def renderComponents (env : SysEnv) (dm : DisplayManager) :
    List Component → Except String (List DrawOp)
  | [] => Except.ok []
  | c :: rest =>
    match renderComponent env dm c with
    | Except.error e => Except.error (("error rendering component: ") ++ e)
    | Except.ok ops =>
      match renderComponents env dm rest with
      | Except.error e => Except.error e
      | Except.ok more => Except.ok (ops ++ more)

/-- A screen with no components (unused under the in-range hypotheses
of the claims). -/
def defaultScreen : Screen := ⟨(""), []⟩

/-- Screens[currentScreen].Components.  Go's indexing panics when the
index is out of range; the claims only consider in-range indices, where
getD agrees with true indexing. -/
def currentComponents (dm : DisplayManager) : List Component :=
  (dm.config.screens.getD dm.currentScreen defaultScreen).components

/-- The full-clear loop of renderCurrentScreen: writes 0 to every byte
of the pixel array, so every pixel of the previous frame is off. -/
def clearBuffer (_prior : Img) : Img := emptyImg

/-- renderCurrentScreen(): renders every component of the current
screen in order, short-circuiting on the first error, and issues a
single whole-buffer Draw to the device only on success.  Returns the
accumulated primitive draw calls (or the error) together with the
device commands issued during the cycle. -/
def renderCurrentScreen (env : SysEnv) (dm : DisplayManager) :
    Except String (List DrawOp) × List DevCmd :=
  match renderComponents env dm (currentComponents dm) with
  | Except.error e => (Except.error e, [])
  | Except.ok ops => (Except.ok ops, [DevCmd.draw 0 0 dispW dispH])

/-- Frame-buffer view of renderCurrentScreen: the previous buffer is
fully cleared, then the draw calls are replayed onto it. -/
def renderCurrentScreenImg (font : FontRaster) (env : SysEnv)
    (dm : DisplayManager) (prior : Img) : Except String Img × List DevCmd :=
  match renderCurrentScreen env dm with
  | (Except.error e, cmds) => (Except.error e, cmds)
  | (Except.ok ops, cmds) => (Except.ok (applyOps font (clearBuffer prior) ops), cmds)

/-- Frame-buffer view of renderComponent. -/
def renderComponentImg (font : FontRaster) (env : SysEnv)
    (dm : DisplayManager) (comp : Component) (img : Img) : Except String Img :=
  match renderComponent env dm comp with
  | Except.error e => Except.error e
  | Except.ok ops => Except.ok (applyOps font img ops)

/-- updateBrightness(): computes the day/night contrast from the
injected clock and issues SetContrast to the device.  The uint8
conversion is modelled as % 256 (both levels are below 256). -/
def updateBrightness (dm : DisplayManager) : DevCmd :=
  DevCmd.setContrast
    ((if dm.config.dayStartHour ≤ dm.timeNow.hour ∧
        dm.timeNow.hour < dm.config.nightStartHour
      then brightContrast else dimContrast) % 256)

/-- The screen-switch step of Run():
currentScreen = (currentScreen + 1) % len(Screens). -/
def advanceScreen (dm : DisplayManager) : DisplayManager :=
  { dm with currentScreen := (dm.currentScreen + 1) % dm.config.screens.length }

/-- A raster that paints nothing, for concrete witnesses. -/
def trivFont : FontRaster := fun img _ _ _ => img

def gtNoon : GoTime := ⟨12, fun _ => ("12:00:00")⟩

def gtNight : GoTime := ⟨22, fun _ => ("22:00:00")⟩

def gtSeven : GoTime := ⟨7, fun _ => ("07:00:00")⟩

def gtEighteen : GoTime := ⟨18, fun _ => ("18:00:00")⟩

def envEx : SysEnv :=
  ⟨Except.ok 25, Except.ok 40, Except.ok 55, Except.ok 45000, gtNoon⟩

def envBad : SysEnv :=
  ⟨Except.error ("cpu read failed"), Except.ok 40, Except.ok 55, Except.ok 45000, gtNoon⟩

def compTime : Component := ⟨("time"), 5, 10, (""), false, 0, ("15:04:05")⟩

def compIp : Component := ⟨("ip"), 5, 20, ("IP"), false, 0, ("")⟩

def compCpu : Component := ⟨("cpu"), 5, 34, ("CPU"), true, 88, ("")⟩

def compTemp : Component := ⟨("temperature"), 5, 10, ("Temp"), true, 88, ("")⟩

def compFoo : Component := ⟨("sparkline"), 3, 3, (""), false, 0, ("")⟩

def cfgEx : Config := ⟨5, ("eth0"), 30, 7, 18, [⟨("Status"), [compIp]⟩]⟩

def cfgCpu : Config := ⟨5, ("eth0"), 30, 7, 18, [⟨("Status"), [compIp, compCpu]⟩]⟩

def cfg3 : Config := ⟨5, ("eth0"), 30, 7, 18, [⟨("A"), []⟩, ⟨("B"), []⟩, ⟨("C"), []⟩]⟩

def dmEx : DisplayManager := ⟨cfgEx, 0, fun _ => ("192.168.1.100"), false, gtNoon⟩

def dmCpu : DisplayManager := ⟨cfgCpu, 0, fun _ => ("192.168.1.100"), false, gtNoon⟩

def dm3 : DisplayManager := ⟨cfg3, 1, fun _ => ("192.168.1.100"), false, gtNoon⟩

def dmSeven : DisplayManager := ⟨cfgEx, 0, fun _ => ("192.168.1.100"), false, gtSeven⟩

def dmEighteen : DisplayManager := ⟨cfgEx, 0, fun _ => ("192.168.1.100"), false, gtEighteen⟩

def netEnvMissing : NetEnv := ⟨fun name => Except.error (("no such interface: ") ++ name)⟩

def envNight : SysEnv :=
  ⟨Except.ok 25, Except.ok 40, Except.ok 55, Except.ok 45000, gtNight⟩

/-- The 1-pixel rectangular border of the closed region
[x, x+w] x [y, y+h], as the specification words it. -/
def onBorder (x y w h a b : Int) : Prop :=
  x ≤ a ∧ a ≤ x + w ∧ y ≤ b ∧ b ≤ y + h ∧
    (a = x ∨ a = x + w ∨ b = y ∨ b = y + h)

/-- The interior fill region of a bar: columns x+1 .. x+w-1,
rows y+1 .. y+h-1 (strictly inside the border). -/
def inFillInterior (x y w h a b : Int) : Prop :=
  x + 1 ≤ a ∧ a ≤ x + w - 1 ∧ y + 1 ≤ b ∧ b ≤ y + h - 1

theorem set_pix_iff (img : Img) (x y a b : Int) :
    (img.set x y).pix a b = true ↔
      (inBounds x y ∧ a = x ∧ b = y) ∨ img.pix a b = true := by
  unfold Img.set
  by_cases hxy : inBounds x y
  · simp only [if_pos hxy]
    by_cases hab : a = x ∧ b = y
    · simp [hab, hxy]
    · simp [hab]
  · simp [hxy]

theorem barBorderH_pix (n : Nat) : ∀ (img : Img) (i y yh a b : Int),
    (barBorderH img i y yh n).pix a b = true ↔
      (inBounds a b ∧ i ≤ a ∧ a < i + n ∧ (b = y ∨ b = yh)) ∨ img.pix a b = true := by
  induction n with
  | zero =>
    intro img i y yh a b
    unfold barBorderH
    constructor
    · intro h
      exact Or.inr h
    · rintro (⟨_, _, h2, _⟩ | h)
      · omega
      · exact h
  | succ n ih =>
    intro img i y yh a b
    unfold barBorderH
    rw [ih, set_pix_iff, set_pix_iff]
    unfold inBounds
    cases hpix : img.pix a b
    · constructor
      · rintro (⟨hb, h1, h2, h3⟩ | ⟨hb, h1, h2⟩ | ⟨hb, h1, h2⟩ | h)
        · exact Or.inl ⟨hb, by omega, by omega, h3⟩
        · subst h1; subst h2
          exact Or.inl ⟨hb, by omega, by omega, Or.inr rfl⟩
        · subst h1; subst h2
          exact Or.inl ⟨hb, by omega, by omega, Or.inl rfl⟩
        · simp at h
      · rintro (⟨hb, h1, h2, h3⟩ | h)
        · by_cases hia : a = i
          · rcases h3 with h3 | h3
            · subst h3; subst hia
              exact Or.inr (Or.inr (Or.inl ⟨hb, rfl, rfl⟩))
            · subst h3; subst hia
              exact Or.inr (Or.inl ⟨hb, rfl, rfl⟩)
          · exact Or.inl ⟨hb, by omega, by omega, h3⟩
        · simp at h
    · simp

theorem barBorderV_pix (n : Nat) : ∀ (img : Img) (x xw j a b : Int),
    (barBorderV img x xw j n).pix a b = true ↔
      (inBounds a b ∧ j ≤ b ∧ b < j + n ∧ (a = x ∨ a = xw)) ∨ img.pix a b = true := by
  induction n with
  | zero =>
    intro img x xw j a b
    unfold barBorderV
    constructor
    · intro h
      exact Or.inr h
    · rintro (⟨_, _, h2, _⟩ | h)
      · omega
      · exact h
  | succ n ih =>
    intro img x xw j a b
    unfold barBorderV
    rw [ih, set_pix_iff, set_pix_iff]
    unfold inBounds
    cases hpix : img.pix a b
    · constructor
      · rintro (⟨hb, h1, h2, h3⟩ | ⟨hb, h1, h2⟩ | ⟨hb, h1, h2⟩ | h)
        · exact Or.inl ⟨hb, by omega, by omega, h3⟩
        · subst h1; subst h2
          exact Or.inl ⟨hb, by omega, by omega, Or.inr rfl⟩
        · subst h1; subst h2
          exact Or.inl ⟨hb, by omega, by omega, Or.inl rfl⟩
        · simp at h
      · rintro (⟨hb, h1, h2, h3⟩ | h)
        · by_cases hjb : b = j
          · rcases h3 with h3 | h3
            · subst h3; subst hjb
              exact Or.inr (Or.inr (Or.inl ⟨hb, rfl, rfl⟩))
            · subst h3; subst hjb
              exact Or.inr (Or.inl ⟨hb, rfl, rfl⟩)
          · exact Or.inl ⟨hb, by omega, by omega, h3⟩
        · simp at h
    · simp

theorem fillCol_pix (n : Nat) : ∀ (img : Img) (i j a b : Int),
    (fillCol img i j n).pix a b = true ↔
      (inBounds a b ∧ a = i ∧ j ≤ b ∧ b < j + n) ∨ img.pix a b = true := by
  induction n with
  | zero =>
    intro img i j a b
    unfold fillCol
    constructor
    · intro h
      exact Or.inr h
    · rintro (⟨_, _, _, h3⟩ | h)
      · omega
      · exact h
  | succ n ih =>
    intro img i j a b
    unfold fillCol
    rw [ih, set_pix_iff]
    unfold inBounds
    cases hpix : img.pix a b
    · constructor
      · rintro (⟨hb, h1, h2, h3⟩ | ⟨hb, h1, h2⟩ | h)
        · exact Or.inl ⟨hb, h1, by omega, by omega⟩
        · subst h1; subst h2
          exact Or.inl ⟨hb, rfl, by omega, by omega⟩
        · simp at h
      · rintro (⟨hb, h1, h2, h3⟩ | h)
        · by_cases hjb : b = j
          · subst h1; subst hjb
            exact Or.inr (Or.inl ⟨hb, rfl, rfl⟩)
          · exact Or.inl ⟨hb, h1, by omega, by omega⟩
        · simp at h
    · simp

theorem barFill_pix (n : Nat) : ∀ (img : Img) (i y h a b : Int),
    (barFill img i y h n).pix a b = true ↔
      (inBounds a b ∧ i ≤ a ∧ a < i + n ∧ y + 1 ≤ b ∧ b < y + h) ∨
        img.pix a b = true := by
  induction n with
  | zero =>
    intro img i y h a b
    unfold barFill
    constructor
    · intro hp
      exact Or.inr hp
    · rintro (⟨_, _, h2, _⟩ | hp)
      · omega
      · exact hp
  | succ n ih =>
    intro img i y h a b
    unfold barFill
    rw [ih, fillCol_pix]
    unfold inBounds
    cases hpix : img.pix a b
    · constructor
      · rintro (⟨hb, h1, h2, h3, h4⟩ | ⟨hb, h1, h2, h3⟩ | hp)
        · exact Or.inl ⟨hb, by omega, by omega, h3, h4⟩
        · exact Or.inl ⟨hb, by omega, by omega, by omega, by omega⟩
        · simp at hp
      · rintro (⟨hb, h1, h2, h3, h4⟩ | hp)
        · by_cases hia : a = i
          · exact Or.inr (Or.inl ⟨hb, hia, by omega, by omega⟩)
          · exact Or.inl ⟨hb, by omega, by omega, h3, h4⟩
        · simp at hp
    · simp

/-- Pixel-level characterization of `drawBar`: a pixel is on after the
call iff it was already on, or it lies in bounds and on the top/bottom
border rows, the left/right border columns, or the fill block. -/
theorem drawBar_pix_iff (img : Img) (x y w h : Int) (frac : ℚ) (a b : Int) :
    (drawBar img x y w h frac).pix a b = true ↔
      (inBounds a b ∧
        ((x ≤ a ∧ a < x + w ∧ (b = y ∨ b = y + h)) ∨
         (y ≤ b ∧ b < y + h ∧ (a = x ∨ a = x + w)) ∨
         (x + 1 ≤ a ∧ a < x + 1 + fillW w frac ∧ y + 1 ≤ b ∧ b < y + h))) ∨
      img.pix a b = true := by
  unfold drawBar
  rw [barFill_pix, barBorderV_pix, barBorderH_pix]
  cases hpix : img.pix a b
  · constructor
    · rintro (⟨hb, h1, h2, h3, h4⟩ | ⟨hb, h1, h2, h3⟩ | ⟨hb, h1, h2, h3⟩ | hp)
      · exact Or.inl ⟨hb, Or.inr (Or.inr ⟨by omega, by omega, h3, h4⟩)⟩
      · exact Or.inl ⟨hb, Or.inr (Or.inl ⟨h1, by omega, h3⟩)⟩
      · exact Or.inl ⟨hb, Or.inl ⟨h1, by omega, h3⟩⟩
      · simp at hp
    · rintro (⟨hb, ⟨h1, h2, h3⟩ | ⟨h1, h2, h3⟩ | ⟨h1, h2, h3, h4⟩⟩ | hp)
      · exact Or.inr (Or.inr (Or.inl ⟨hb, h1, by omega, h3⟩))
      · exact Or.inr (Or.inl ⟨hb, h1, by omega, h3⟩)
      · exact Or.inl ⟨hb, h1, by omega, h3, h4⟩
      · simp at hp
  · simp


theorem ratTrunc_nonpos {q : ℚ} (h : q ≤ 0) : ratTrunc q ≤ 0 := by
  unfold ratTrunc
  split
  · calc ⌊q⌋ ≤ ⌊(0 : ℚ)⌋ := Int.floor_le_floor h
    _ = 0 := Int.floor_zero
  · exact Int.ceil_le.mpr (by exact_mod_cast h)

theorem one_le_ratTrunc {q : ℚ} (h : 1 ≤ q) : 1 ≤ ratTrunc q := by
  unfold ratTrunc
  rw [if_pos (le_trans zero_le_one h)]
  exact Int.le_floor.mpr (by exact_mod_cast h)

theorem ratTrunc_intCast (n : Int) : ratTrunc (n : ℚ) = n := by
  unfold ratTrunc
  split
  · exact Int.floor_intCast n
  · exact Int.ceil_intCast n

theorem fillW_zero (w : Int) : fillW w 0 = 0 := by
  unfold fillW
  rw [mul_zero]
  exact ratTrunc_intCast 0

theorem fillW_one (w : Int) : fillW w 1 = w - 2 := by
  unfold fillW
  rw [mul_one]
  exact ratTrunc_intCast (w - 2)

theorem fillW_half_ge_one {w : Int} (hw : 4 ≤ w) : 1 ≤ fillW w (1 / 2) := by
  unfold fillW
  apply one_le_ratTrunc
  have h2 : (2 : ℚ) ≤ ((w - 2 : Int) : ℚ) := by
    exact_mod_cast (by omega : (2 : Int) ≤ w - 2)
  linarith

/-- C4 counterexample: with x=10, y=10, width=5, height=5 (both ≥ 1) and
fraction 0, the bottom-right border corner (15, 15) lies in bounds and on
the border of [10, 15] x [10, 15], yet drawBar leaves it unset. -/
theorem drawBar_missing_corner_cex :
    onBorder 10 10 5 5 15 15 ∧ inBounds 15 15 ∧
      (drawBar emptyImg 10 10 5 5 0).pix 15 15 = false := by
  refine ⟨by unfold onBorder; omega, by unfold inBounds dispW dispH; omega, ?_⟩
  have h := drawBar_pix_iff emptyImg 10 10 5 5 0 15 15
  rw [fillW_zero] at h
  cases hb : (drawBar emptyImg 10 10 5 5 0).pix 15 15
  · rfl
  · rw [hb] at h
    have h2 := h.mp rfl
    simp only [emptyImg] at h2
    rcases h2 with ⟨_, hd⟩ | hfalse
    · omega
    · simp at hfalse

/-- C4 (amended): for width ≥ 1 and height ≥ 1, every pixel of the
1-pixel border of [x, x+w] x [y, y+h] that lies inside the buffer
bounds is set after drawBar, with the sole exception of the
bottom-right corner (x+w, y+h), independent of the fraction. -/
theorem drawBar_border_set (img : Img) (x y w h a b : Int) (frac : ℚ)
    (hw : 1 ≤ w) (hh : 1 ≤ h) (hob : onBorder x y w h a b)
    (hcorner : ¬(a = x + w ∧ b = y + h)) (hin : inBounds a b) :
    (drawBar img x y w h frac).pix a b = true := by
  rw [drawBar_pix_iff]
  refine Or.inl ⟨hin, ?_⟩
  unfold onBorder at hob
  omega

theorem drawBar_border_set_witness :
    (drawBar emptyImg 10 10 5 5 (1 / 2)).pix 10 12 = true :=
  drawBar_border_set emptyImg 10 10 5 5 10 12 (1 / 2) (by norm_num) (by norm_num)
    (by unfold onBorder; omega) (by omega) (by unfold inBounds dispW dispH; omega)

/-- C5: for fraction in {0, 1/2, 1}, width ≥ 4, height ≥ 2 and a bar
placed inside the buffer bounds, the interior fill region holds a
painted pixel iff the fraction is positive (starting from a cleared
buffer). -/
theorem drawBar_interior_iff (x y w h : Int) (frac : ℚ)
    (hf : frac = 0 ∨ frac = 1 / 2 ∨ frac = 1) (hw : 4 ≤ w) (hh : 2 ≤ h)
    (hx : 0 ≤ x) (hxw : x + w < dispW) (hy : 0 ≤ y) (hyh : y + h < dispH) :
    (∃ a b, inFillInterior x y w h a b ∧
        (drawBar emptyImg x y w h frac).pix a b = true) ↔ 0 < frac := by
  constructor
  · rintro ⟨a, b, hint, hpix⟩
    rcases hf with rfl | rfl | rfl
    · exfalso
      rw [drawBar_pix_iff, fillW_zero] at hpix
      unfold inFillInterior at hint
      simp only [emptyImg] at hpix
      rcases hpix with ⟨_, hd⟩ | hfalse
      · omega
      · simp at hfalse
    · norm_num
    · norm_num
  · intro hpos
    have hfill : 1 ≤ fillW w frac := by
      rcases hf with rfl | rfl | rfl
      · norm_num at hpos
      · exact fillW_half_ge_one hw
      · rw [fillW_one]; omega
    refine ⟨x + 1, y + 1, ?_, ?_⟩
    · unfold inFillInterior
      omega
    · rw [drawBar_pix_iff]
      refine Or.inl ⟨?_, Or.inr (Or.inr ?_)⟩
      · simp only [inBounds, dispW, dispH] at hxw hyh ⊢
        omega
      · omega

theorem drawBar_interior_iff_witness :
    (∃ a b, inFillInterior 0 0 10 7 a b ∧
        (drawBar emptyImg 0 0 10 7 (1 / 2)).pix a b = true) ↔ 0 < (1 / 2 : ℚ) :=
  drawBar_interior_iff 0 0 10 7 (1 / 2) (Or.inr (Or.inl rfl)) (by norm_num)
    (by norm_num) le_rfl (by norm_num [dispW]) le_rfl (by norm_num [dispH])

/-- C9 counterexample: for width = 0 (< 2) and fraction = -1, the
computed fill width is 2 (positive), the fill loop body runs, and the
call paints interior pixel (11, 11) that fraction 0 leaves unset. -/
theorem drawBar_negative_fraction_cex :
    fillW 0 (-1) = 2 ∧
      (drawBar emptyImg 10 10 0 7 (-1)).pix 11 11 = true ∧
      (drawBar emptyImg 10 10 0 7 0).pix 11 11 = false := by
  have hf : fillW 0 (-1) = 2 := by
    unfold fillW ratTrunc
    norm_num
  refine ⟨hf, ?_, ?_⟩
  · rw [drawBar_pix_iff, hf]
    refine Or.inl ⟨?_, Or.inr (Or.inr ?_)⟩
    · unfold inBounds dispW dispH
      omega
    · omega
  · have h := drawBar_pix_iff emptyImg 10 10 0 7 0 11 11
    rw [fillW_zero] at h
    cases hb : (drawBar emptyImg 10 10 0 7 0).pix 11 11
    · rfl
    · rw [hb] at h
      have h2 := h.mp rfl
      simp only [emptyImg] at h2
      rcases h2 with ⟨_, hd⟩ | hfalse
      · omega
      · simp at hfalse

/-- C9 (amended): for width ≥ 2 and fraction < 0, the computed fill
width is non-positive, so the fill loop never executes and the whole
call produces exactly the same buffer as fraction 0 does. -/
theorem drawBar_nonpos_fill (img : Img) (x y w h : Int) (frac : ℚ)
    (hw : 2 ≤ w) (hf : frac < 0) :
    fillW w frac ≤ 0 ∧ drawBar img x y w h frac = drawBar img x y w h 0 := by
  have h1 : fillW w frac ≤ 0 := by
    unfold fillW
    apply ratTrunc_nonpos
    apply mul_nonpos_iff.mpr
    refine Or.inl ⟨?_, le_of_lt hf⟩
    exact_mod_cast (by omega : (0 : Int) ≤ w - 2)
  refine ⟨h1, ?_⟩
  unfold drawBar
  rw [show (fillW w frac).toNat = 0 from Int.toNat_eq_zero.mpr h1,
    show (fillW w 0).toNat = 0 from by rw [fillW_zero]; rfl]

theorem drawBar_nonpos_fill_witness :
    fillW 5 (-1 / 2) ≤ 0 ∧
      drawBar emptyImg 0 0 5 7 (-1 / 2) = drawBar emptyImg 0 0 5 7 0 :=
  drawBar_nonpos_fill emptyImg 0 0 5 7 (-1 / 2) (by norm_num) (by norm_num)

theorem advanceScreen_config (dm : DisplayManager) :
    (advanceScreen dm).config = dm.config := rfl

theorem advanceScreen_iterate (dm : DisplayManager)
    (h : dm.currentScreen < dm.config.screens.length) (k : Nat) :
    (advanceScreen^[k] dm).config = dm.config ∧
      (advanceScreen^[k] dm).currentScreen =
        (dm.currentScreen + k) % dm.config.screens.length := by
  induction k with
  | zero =>
    refine ⟨rfl, ?_⟩
    simp [Nat.mod_eq_of_lt h]
  | succ k ih =>
    rw [Function.iterate_succ_apply']
    refine ⟨by rw [advanceScreen_config]; exact ih.1, ?_⟩
    show ((advanceScreen^[k] dm).currentScreen + 1) %
        (advanceScreen^[k] dm).config.screens.length = _
    rw [ih.1, ih.2, Nat.mod_add_mod, Nat.add_assoc]

/-- C2: with N ≥ 1 screens and the current index in range, N
applications of the screen-switch step return the index to its start,
and every intermediate index stays below N. -/
theorem screen_rotation_cyclic (dm : DisplayManager)
    (h : dm.currentScreen < dm.config.screens.length) :
    (advanceScreen^[dm.config.screens.length] dm).currentScreen =
        dm.currentScreen ∧
      ∀ k : Nat, k ≤ dm.config.screens.length →
        (advanceScreen^[k] dm).currentScreen < dm.config.screens.length := by
  constructor
  · rw [(advanceScreen_iterate dm h _).2, Nat.add_mod_right]
    exact Nat.mod_eq_of_lt h
  · intro k _
    rw [(advanceScreen_iterate dm h k).2]
    exact Nat.mod_lt _ (by omega)

theorem screen_rotation_cyclic_witness :
    (advanceScreen^[dm3.config.screens.length] dm3).currentScreen =
        dm3.currentScreen ∧
      ∀ k : Nat, k ≤ dm3.config.screens.length →
        (advanceScreen^[k] dm3).currentScreen < dm3.config.screens.length :=
  screen_rotation_cyclic dm3 (by decide)

/-- C3: updateBrightness issues contrast 255 to the device iff
DayStartHour ≤ hour < NightStartHour, and contrast 1 otherwise. -/
theorem updateBrightness_policy (dm : DisplayManager)
    (_h0 : 0 ≤ dm.timeNow.hour) (_h23 : dm.timeNow.hour ≤ 23) :
    (updateBrightness dm = DevCmd.setContrast 255 ↔
      dm.config.dayStartHour ≤ dm.timeNow.hour ∧
        dm.timeNow.hour < dm.config.nightStartHour) ∧
    (¬(dm.config.dayStartHour ≤ dm.timeNow.hour ∧
        dm.timeNow.hour < dm.config.nightStartHour) →
      updateBrightness dm = DevCmd.setContrast 1) := by
  by_cases hday : dm.config.dayStartHour ≤ dm.timeNow.hour ∧
      dm.timeNow.hour < dm.config.nightStartHour
  · refine ⟨⟨fun _ => hday, fun _ => ?_⟩, fun hc => absurd hday hc⟩
    unfold updateBrightness brightContrast
    rw [if_pos hday]
  · refine ⟨⟨fun he => ?_, fun hc => absurd hc hday⟩, fun _ => ?_⟩
    · exfalso
      unfold updateBrightness brightContrast dimContrast at he
      rw [if_neg hday] at he
      exact absurd he (by decide)
    · unfold updateBrightness dimContrast
      rw [if_neg hday]

theorem updateBrightness_policy_witness :
    (updateBrightness dmSeven = DevCmd.setContrast 255 ↔
      dmSeven.config.dayStartHour ≤ dmSeven.timeNow.hour ∧
        dmSeven.timeNow.hour < dmSeven.config.nightStartHour) ∧
    updateBrightness dmSeven = DevCmd.setContrast 255 ∧
    updateBrightness dmEighteen = DevCmd.setContrast 1 :=
  ⟨(updateBrightness_policy dmSeven (by decide) (by decide)).1,
    ((updateBrightness_policy dmSeven (by decide) (by decide)).1).mpr (by decide),
    (updateBrightness_policy dmEighteen (by decide) (by decide)).2 (by decide)⟩

/-- C6: a component whose Type lies outside the recognized set returns
no error and leaves the frame buffer exactly as it was. -/
theorem renderComponent_unknown (font : FontRaster) (env : SysEnv)
    (dm : DisplayManager) (comp : Component) (img : Img)
    (h : comp.type ∉
      [("time"), ("ip"), ("cpu"), ("memory"), ("disk"), ("temperature")]) :
    renderComponent env dm comp = Except.ok [] ∧
      renderComponentImg font env dm comp img = Except.ok img := by
  simp only [List.mem_cons, List.not_mem_nil, or_false, not_or] at h
  obtain ⟨h1, h2, h3, h4, h5, h6⟩ := h
  have hr : renderComponent env dm comp = Except.ok [] := by
    unfold renderComponent
    rw [if_neg h1, if_neg h2, if_neg h3, if_neg h4, if_neg h5, if_neg h6]
  refine ⟨hr, ?_⟩
  simp [renderComponentImg, hr, applyOps]

theorem renderComponent_unknown_witness :
    renderComponent envEx dmEx compFoo = Except.ok [] ∧
      renderComponentImg trivFont envEx dmEx compFoo emptyImg =
        Except.ok emptyImg :=
  renderComponent_unknown trivFont envEx dmEx compFoo emptyImg (by decide)

theorem firstIPv4_spec (l : List NetAddr) :
    firstIPv4 l = ("No IPv4") ∨
      ∃ a ∈ l, ∃ s, a.ipNet = some (some s) ∧ firstIPv4 l = s := by
  induction l with
  | nil => exact Or.inl rfl
  | cons a rest ih =>
    cases hip : a.ipNet with
    | none =>
      have hred : firstIPv4 (a :: rest) = firstIPv4 rest := by
        simp only [firstIPv4, hip]
      rw [hred]
      rcases ih with h | ⟨b, hb, s, hs, he⟩
      · exact Or.inl h
      · exact Or.inr ⟨b, List.mem_cons_of_mem a hb, s, hs, he⟩
    | some o =>
      cases o with
      | none =>
        have hred : firstIPv4 (a :: rest) = firstIPv4 rest := by
          simp only [firstIPv4, hip]
        rw [hred]
        rcases ih with h | ⟨b, hb, s, hs, he⟩
        · exact Or.inl h
        · exact Or.inr ⟨b, List.mem_cons_of_mem a hb, s, hs, he⟩
      | some ip4 =>
        have hred : firstIPv4 (a :: rest) = ip4 := by
          simp only [firstIPv4, hip]
        rw [hred]
        exact Or.inr ⟨a, List.mem_cons_self a rest, ip4, hip, rfl⟩

/-- C7: GetIPv4Address always yields a string — the interface's first
IPv4 address or one of the fallback markers — never an error, and the
ip arm of renderComponent never returns an error. -/
theorem getIPv4Address_total (net : NetEnv) (name : String)
    (env : SysEnv) (dm : DisplayManager) (comp : Component)
    (htype : comp.type = ("ip")) :
    (getIPv4Address net name = ("No ") ++ name ∨
      getIPv4Address net name = ("No IP") ∨
      getIPv4Address net name = ("No IPv4") ∨
      ∃ iface, net.interfaceByName name = Except.ok iface ∧
        ∃ addrList, iface.addrs = Except.ok addrList ∧
          ∃ a ∈ addrList, ∃ s, a.ipNet = some (some s) ∧
            getIPv4Address net name = s) ∧
    ∃ ops, renderComponent env dm comp = Except.ok ops := by
  constructor
  · cases hif : net.interfaceByName name with
    | error e =>
      left
      simp only [getIPv4Address, hif]
    | ok iface =>
      cases ha : iface.addrs with
      | error e =>
        right; left
        simp only [getIPv4Address, hif, ha]
      | ok addrList =>
        have hg : getIPv4Address net name = firstIPv4 addrList := by
          simp only [getIPv4Address, hif, ha]
        rcases firstIPv4_spec addrList with h | ⟨a, hm, s, hs, he⟩
        · right; right; left
          rw [hg]
          exact h
        · refine Or.inr (Or.inr (Or.inr ⟨iface, rfl, addrList, ha, a, hm, s, hs, ?_⟩))
          rw [hg]
          exact he
  · exact ⟨[DrawOp.labelOp comp.x comp.y
      (comp.label ++ (": ") ++ dm.networkChecker dm.config.networkInterface)],
      by simp [renderComponent, htype]⟩

theorem getIPv4Address_total_witness :
    ((getIPv4Address netEnvMissing ("eth0") = ("No ") ++ ("eth0") ∨
      getIPv4Address netEnvMissing ("eth0") = ("No IP") ∨
      getIPv4Address netEnvMissing ("eth0") = ("No IPv4") ∨
      ∃ iface, netEnvMissing.interfaceByName ("eth0") = Except.ok iface ∧
        ∃ addrList, iface.addrs = Except.ok addrList ∧
          ∃ a ∈ addrList, ∃ s, a.ipNet = some (some s) ∧
            getIPv4Address netEnvMissing ("eth0") = s) ∧
    ∃ ops, renderComponent envEx dmEx compIp = Except.ok ops) :=
  getIPv4Address_total netEnvMissing ("eth0") envEx dmEx compIp rfl

/-- C8: the temperature arm renders raw/1000 degrees Celsius with
label text label-colon-value-space-C formatted to one decimal place,
and, when show_bar is set, draws the bar at (x, y+5) fed fill fraction
celsius/100. -/
theorem renderComponent_temperature (env : SysEnv) (dm : DisplayManager)
    (comp : Component) (raw : ℚ) (htype : comp.type = ("temperature"))
    (hraw : env.tempRead = Except.ok raw) :
    renderComponent env dm comp =
      Except.ok ([DrawOp.labelOp comp.x comp.y
          (comp.label ++ (": ") ++ fmt1 (raw / 1000) ++ (" C"))] ++
        (if comp.showBar then
          [DrawOp.barOp comp.x (comp.y + 5) comp.barWidth barHeight
            ((raw / 1000) / 100)]
         else [])) := by
  simp [renderComponent, htype, hraw]

theorem renderComponent_temperature_witness :
    envEx.tempRead = Except.ok 45000 ∧
      renderComponent envEx dmEx compTemp =
        Except.ok ([DrawOp.labelOp compTemp.x compTemp.y
            (compTemp.label ++ (": ") ++ fmt1 ((45000 : ℚ) / 1000) ++ (" C"))] ++
          (if compTemp.showBar then
            [DrawOp.barOp compTemp.x (compTemp.y + 5) compTemp.barWidth barHeight
              (((45000 : ℚ) / 1000) / 100)]
           else [])) :=
  ⟨rfl, renderComponent_temperature envEx dmEx compTemp 45000 rfl rfl⟩

/-- C10: renderComponent never consults the injected clock dm.timeNow
(two runs differing only in timeNow yield identical draw calls and
identical frame buffers), while updateBrightness does consult it, and
the time arm instead reads the ambient global clock time.Now()
(modelled as the environment's now). -/
theorem renderComponent_ignores_injected_clock (font : FontRaster)
    (env : SysEnv) (dm : DisplayManager) (t1 t2 : GoTime)
    (comp : Component) (img : Img) :
    (renderComponent env { dm with timeNow := t1 } comp =
      renderComponent env { dm with timeNow := t2 } comp) ∧
    (renderComponentImg font env { dm with timeNow := t1 } comp img =
      renderComponentImg font env { dm with timeNow := t2 } comp img) ∧
    updateBrightness dmSeven ≠
      updateBrightness { dmSeven with timeNow := gtNight } ∧
    envNight = { envEx with now := gtNight } ∧
    renderComponent envEx dmEx compTime ≠
      renderComponent envNight dmEx compTime := by
  refine ⟨rfl, rfl, by decide, rfl, ?_⟩
  have h1 : renderComponent envEx dmEx compTime =
      Except.ok [DrawOp.labelOp 5 10 ("12:00:00")] := by
    simp [renderComponent, compTime, labelPrefix, envEx, gtNoon]
  have h2 : renderComponent envNight dmEx compTime =
      Except.ok [DrawOp.labelOp 5 10 ("22:00:00")] := by
    simp [renderComponent, compTime, labelPrefix, envNight, envEx, gtNight]
  rw [h1, h2]
  simp

theorem renderComponents_error_spec (env : SysEnv) (dm : DisplayManager) :
    ∀ (l : List Component) (e : String),
      renderComponents env dm l = Except.error e →
      ∃ k, ∃ hk : k < l.length,
        (∀ c ∈ l.take k, ∃ o, renderComponent env dm c = Except.ok o) ∧
        ∃ e0, renderComponent env dm (l.get ⟨k, hk⟩) = Except.error e0 ∧
          e = ("error rendering component: ") ++ e0 := by
  intro l
  induction l with
  | nil =>
    intro e he
    exact absurd he (by simp [renderComponents])
  | cons c rest ih =>
    intro e he
    cases hc : renderComponent env dm c with
    | error e0 =>
      simp only [renderComponents, hc] at he
      injection he with he
      refine ⟨0, by simp, ?_, e0, hc, he.symm⟩
      intro c2 hc2
      simp at hc2
    | ok ops =>
      cases hr : renderComponents env dm rest with
      | error e2 =>
        simp only [renderComponents, hc, hr] at he
        injection he with he
        subst he
        obtain ⟨k, hk, hpre, e0, hke, hee⟩ := ih e2 hr
        refine ⟨k + 1, by simpa using Nat.succ_lt_succ hk, ?_, e0, ?_, hee⟩
        · intro c2 hc2
          rw [List.take_succ_cons] at hc2
          rcases List.mem_cons.mp hc2 with rfl | h2
          · exact ⟨ops, hc⟩
          · exact hpre c2 h2
        · simpa using hke
      | ok more =>
        simp only [renderComponents, hc, hr] at he
        exact Except.noConfusion he

theorem renderComponents_ok_spec (env : SysEnv) (dm : DisplayManager) :
    ∀ (l : List Component) (ops : List DrawOp),
      renderComponents env dm l = Except.ok ops →
      ops = (l.map (compOps env dm)).flatten ∧
        ∀ c ∈ l, ∃ o, renderComponent env dm c = Except.ok o := by
  intro l
  induction l with
  | nil =>
    intro ops h
    simp only [renderComponents] at h
    injection h with h
    subst h
    exact ⟨by simp, by simp⟩
  | cons c rest ih =>
    intro ops h
    cases hc : renderComponent env dm c with
    | error e0 =>
      simp only [renderComponents, hc] at h
      exact Except.noConfusion h
    | ok o1 =>
      cases hr : renderComponents env dm rest with
      | error e2 =>
        simp only [renderComponents, hc, hr] at h
        exact Except.noConfusion h
      | ok more =>
        simp only [renderComponents, hc, hr] at h
        injection h with h
        subst h
        obtain ⟨hops, hall⟩ := ih more hr
        constructor
        · rw [hops]
          simp [compOps, hc, Except.toOption]
        · intro c2 hc2
          rcases List.mem_cons.mp hc2 with rfl | h2
          · exact ⟨o1, hc⟩
          · exact hall c2 h2

/-- C1: renderCurrentScreen first zeroes every pixel of the frame
buffer (the cycle's result does not depend on the prior frame), renders
the current screen's components in declared order stopping at and
returning the first component error, issues no Draw to the device when
a component errors, and issues exactly one Draw covering the whole
buffer bounds when every component succeeds. -/
theorem renderCurrentScreen_spec (font : FontRaster) (env : SysEnv)
    (dm : DisplayManager) (p1 p2 : Img)
    (hlt : dm.currentScreen < dm.config.screens.length) :
    (∀ a b, emptyImg.pix a b = false) ∧
    renderCurrentScreenImg font env dm p1 = renderCurrentScreenImg font env dm p2 ∧
    (∀ e, (renderCurrentScreen env dm).1 = Except.error e →
      (renderCurrentScreen env dm).2 = [] ∧
      ∃ k, ∃ hk : k < (currentComponents dm).length,
        (∀ c ∈ (currentComponents dm).take k,
          ∃ o, renderComponent env dm c = Except.ok o) ∧
        ∃ e0, renderComponent env dm ((currentComponents dm).get ⟨k, hk⟩) =
            Except.error e0 ∧
          e = ("error rendering component: ") ++ e0) ∧
    (∀ ops, (renderCurrentScreen env dm).1 = Except.ok ops →
      (renderCurrentScreen env dm).2 = [DevCmd.draw 0 0 dispW dispH] ∧
      ops = ((currentComponents dm).map (compOps env dm)).flatten ∧
      (∀ c ∈ currentComponents dm, ∃ o, renderComponent env dm c = Except.ok o) ∧
      (renderCurrentScreenImg font env dm p1).1 =
        Except.ok (applyOps font emptyImg ops)) := by
  have _hne : dm.config.screens ≠ [] := by
    intro hcon
    rw [hcon] at hlt
    simp at hlt
  refine ⟨fun a b => rfl, ?_, ?_, ?_⟩
  · cases hrc : renderCurrentScreen env dm with
    | mk fst snd =>
      cases fst with
      | error e => simp [renderCurrentScreenImg, hrc]
      | ok ops => simp [renderCurrentScreenImg, hrc, clearBuffer]
  · intro e he
    cases hr : renderComponents env dm (currentComponents dm) with
    | error e2 =>
      have h1 : renderCurrentScreen env dm = (Except.error e2, []) := by
        simp [renderCurrentScreen, hr]
      rw [h1] at he
      injection he with he
      subst he
      exact ⟨by rw [h1], renderComponents_error_spec env dm _ e2 hr⟩
    | ok ops2 =>
      have h1 : renderCurrentScreen env dm =
          (Except.ok ops2, [DevCmd.draw 0 0 dispW dispH]) := by
        simp [renderCurrentScreen, hr]
      rw [h1] at he
      exact Except.noConfusion he
  · intro ops hops
    cases hr : renderComponents env dm (currentComponents dm) with
    | error e2 =>
      have h1 : renderCurrentScreen env dm = (Except.error e2, []) := by
        simp [renderCurrentScreen, hr]
      rw [h1] at hops
      exact Except.noConfusion hops
    | ok ops2 =>
      have h1 : renderCurrentScreen env dm =
          (Except.ok ops2, [DevCmd.draw 0 0 dispW dispH]) := by
        simp [renderCurrentScreen, hr]
      rw [h1] at hops
      injection hops with hops
      subst hops
      obtain ⟨hjoin, hall⟩ := renderComponents_ok_spec env dm _ ops2 hr
      refine ⟨by rw [h1], hjoin, hall, ?_⟩
      simp [renderCurrentScreenImg, h1, clearBuffer]

theorem renderCurrentScreen_spec_witness :
    (∀ a b, emptyImg.pix a b = false) ∧
    renderCurrentScreenImg trivFont envEx dmEx emptyImg =
      renderCurrentScreenImg trivFont envEx dmEx emptyImg ∧
    (∀ e, (renderCurrentScreen envEx dmEx).1 = Except.error e →
      (renderCurrentScreen envEx dmEx).2 = [] ∧
      ∃ k, ∃ hk : k < (currentComponents dmEx).length,
        (∀ c ∈ (currentComponents dmEx).take k,
          ∃ o, renderComponent envEx dmEx c = Except.ok o) ∧
        ∃ e0, renderComponent envEx dmEx ((currentComponents dmEx).get ⟨k, hk⟩) =
            Except.error e0 ∧
          e = ("error rendering component: ") ++ e0) ∧
    (∀ ops, (renderCurrentScreen envEx dmEx).1 = Except.ok ops →
      (renderCurrentScreen envEx dmEx).2 = [DevCmd.draw 0 0 dispW dispH] ∧
      ops = ((currentComponents dmEx).map (compOps envEx dmEx)).flatten ∧
      (∀ c ∈ currentComponents dmEx,
        ∃ o, renderComponent envEx dmEx c = Except.ok o) ∧
      (renderCurrentScreenImg trivFont envEx dmEx emptyImg).1 =
        Except.ok (applyOps trivFont emptyImg ops)) :=
  renderCurrentScreen_spec trivFont envEx dmEx emptyImg emptyImg (by decide)
